import Mathlib

set_option autoImplicit false

/-!
A verification development for the `retro_state` home-automation plugins.

The development shallowly embeds the three core components:

* `RetroState.HistoricEntity` — the historic state-write protocol
  (`state_async_set` in `custom_components/historic_template/historic_entity.py`);
* `RetroState.Recorder` — the durable log writer's worker loop
  (`_run` in `custom_components/retro_state/recorder.py`);
* `RetroState.Influx` — the time-series exporter's event mapping
  (`event_to_json` in `custom_components/retro_state/influxdb.py`).

Python timestamps (`datetime`) are modelled as naturals ordered as datetimes
are; Python dictionaries as insertion-ordered association lists; Python floats
as a four-case type (finite rational, two infinities, NaN) that captures
exactly the parsing/finiteness distinctions the code inspects.
-/

namespace RetroState

/-- Insertion-ordered association-list lookup (Python `dict.get` / `in`). -/
def alGet {α : Type} : List (String × α) → String → Option α
  | [], _ => none
  | (k', v) :: t, k => if k' = k then some v else alGet t k

/-- Insertion-ordered association-list update (Python `dict[k] = v`):
an existing key keeps its position, a new key is appended. -/
def alSet {α : Type} : List (String × α) → String → α → List (String × α)
  | [], k, v => [(k, v)]
  | (k', v') :: t, k, v =>
    if k' = k then (k, v) :: t else (k', v') :: alSet t k v

/-- Association-list deletion (Python `del d[k]`). -/
def alErase {α : Type} : List (String × α) → String → List (String × α)
  | [], _ => []
  | (k', v) :: t, k => if k' = k then alErase t k else (k', v) :: alErase t k

theorem alGet_alSet_self {α : Type} (m : List (String × α)) (k : String) (v : α) :
    alGet (alSet m k v) k = some v := by
  induction m with
  | nil => simp [alGet, alSet]
  | cons h t ih =>
    by_cases hk : h.1 = k
    · simp [alSet, hk, alGet]
    · simp [alSet, hk, alGet, ih]

theorem alGet_alSet_ne {α : Type} (m : List (String × α)) (k k' : String) (v : α)
    (h : k ≠ k') : alGet (alSet m k v) k' = alGet m k' := by
  have hks : ¬(k' = k) := fun e => h e.symm
  induction m with
  | nil => simp [alGet, alSet, h]
  | cons p t ih =>
    by_cases hk : p.1 = k
    · simp [alSet, hk, alGet, h, hks]
    · by_cases hk' : p.1 = k'
      · simp [alSet, hk, alGet, hk', hks]
      · simp [alSet, hk, alGet, hk', ih]

theorem alGet_alErase_self {α : Type} (m : List (String × α)) (k : String) :
    alGet (alErase m k) k = none := by
  induction m with
  | nil => simp [alGet, alErase]
  | cons p t ih =>
    by_cases hk : p.1 = k
    · simpa [alErase, hk] using ih
    · simpa [alErase, hk, alGet] using ih

theorem alGet_alErase_ne {α : Type} (m : List (String × α)) (k k' : String)
    (h : k ≠ k') : alGet (alErase m k) k' = alGet m k' := by
  have hks : ¬(k' = k) := fun e => h e.symm
  induction m with
  | nil => simp [alGet, alErase]
  | cons p t ih =>
    by_cases hk : p.1 = k
    · have hp : ¬(p.1 = k') := by rw [hk]; exact h
      simpa [alErase, hk, alGet, hp, h] using ih
    · by_cases hk' : p.1 = k'
      · simp [alErase, hk, alGet, hk', hks]
      · simpa [alErase, hk, alGet, hk'] using ih

/-- ASCII lower-casing of one character (model of Python `str.lower()`
on the ASCII identifiers used for entity ids). -/
def lowerChar (c : Char) : Char :=
  if c.isUpper then Char.ofNat (c.toNat + 32) else c

/-- Python `entity_id.lower()`. -/
def pyLower (s : String) : String := String.mk (s.data.map lowerChar)

/-- `homeassistant.const.EVENT_STATE_CHANGED`. -/
def EVENT_STATE_CHANGED : String := "state_changed"

/-- `custom_components/retro_state/const.py`, line 29. -/
def EVENT_HISTORIC_STATE_CHANGED : String := "historic_state_changed"

/-- `homeassistant.const.EVENT_TIME_CHANGED`. -/
def EVENT_TIME_CHANGED : String := "time_changed"

namespace HistoricEntity

/-- Python `datetime` instants, ordered as datetimes are. -/
abbrev Time := Nat

/-- `homeassistant.core.Context`: an opaque correlation id. -/
structure Context where
  cid : Nat
deriving DecidableEq, Repr

/-- `homeassistant.core.State`: the per-entity snapshot.  The timestamp
fields are optional because the decision code at
`historic_entity.py` lines 496-508 guards every comparison with a
truthiness test on them. -/
structure HAState where
  entity_id : String
  state : String
  attributes : List (String × String)
  last_changed : Option Time
  last_updated : Option Time
  context : Context
deriving DecidableEq, Repr

/-- Modelled from the spec: the host runtime's `State` constructor (an
external collaborator, not part of this repository's sources) resolves a
missing `last_updated` to "now" and a missing `last_changed` to the
resolved `last_updated` — "`last_changed = None` is resolved to \"now\" by
the store only if the caller supplied none — otherwise use caller-supplied
timestamps verbatim" (spec section 4.1). -/
def mkState (now : Time) (entity_id state : String)
    (attributes : List (String × String))
    (last_changed last_updated : Option Time) (context : Context) : HAState :=
  let luR := last_updated.getD now
  { entity_id := entity_id
    state := state
    attributes := attributes
    last_changed := some (last_changed.getD luR)
    last_updated := some luR
    context := context }

/-- The payload of one `bus.async_fire` call made by `state_async_set`
(`historic_entity.py` lines 510-514). -/
structure FiredEvent where
  event_type : String
  entity_id : String
  old_state : Option HAState
  new_state : HAState
  context : Context
deriving DecidableEq, Repr

/-- The StateStore: `hass.states._states`, a dict from entity id to its
current `State`. -/
abbrev StateStore := List (String × HAState)

/-- Python truthiness-guarded datetime comparison
`a and b and a > b` (datetimes are always truthy when present). -/
def truthyGt : Option Time → Option Time → Bool
  | some a, some b => a > b
  | _, _ => false

/-- `state_async_set` (`historic_entity.py` lines 463-514): the historic
write decider.  `now` stands for `dt_util.utcnow()` and `freshCtx` for the
`Context()` synthesized when the caller passes no context.  The second
component of the result collects the `async_fire` calls made during the
call, in order. -/
def state_async_set (now : Time) (freshCtx : Context) (states : StateStore)
    (entity_id : String) (new_state : String)
    (attributes : List (String × String)) (context : Option Context)
    (last_changed last_updated : Option Time) :
    StateStore × List FiredEvent :=
  let entity_id := (pyLower entity_id)
  let old_state := alGet states entity_id
  let last_changed := if old_state.isNone then none else last_changed
  let context := context.getD freshCtx
  let state := mkState now entity_id new_state attributes last_changed
      last_updated context
  let decision : StateStore × String :=
    match old_state with
    | some os =>
      if os.state ≠ "" then
        if truthyGt os.last_updated last_updated then
          (states, EVENT_HISTORIC_STATE_CHANGED)
        else if truthyGt os.last_changed last_changed then
          (states, EVENT_HISTORIC_STATE_CHANGED)
        else
          (alSet states entity_id state, EVENT_STATE_CHANGED)
      else
        (alSet states entity_id state, EVENT_STATE_CHANGED)
    | none => (alSet states entity_id state, EVENT_STATE_CHANGED)
  (decision.1,
   [{ event_type := decision.2
      entity_id := entity_id
      old_state := old_state
      new_state := state
      context := context }])

/-- One call in a sequence of writes to a fixed entity. -/
structure WriteCall where
  value : String
  attributes : List (String × String)
  context : Option Context
  last_changed : Option Time
  last_updated : Option Time
deriving DecidableEq, Repr

/-- Run a sequence of `state_async_set` calls against one entity,
threading the StateStore and concatenating the fired events. -/
def runWrites (now : Time) (fresh : Context) (eid : String) :
    StateStore → List WriteCall → StateStore × List FiredEvent
  | states, [] => (states, [])
  | states, c :: cs =>
    let r := state_async_set now fresh states eid c.value c.attributes
        c.context c.last_changed c.last_updated
    let rest := runWrites now fresh eid r.1 cs
    (rest.1, r.2 ++ rest.2)

theorem truthyGt_none_right (a : Option Time) : truthyGt a none = false := by
  cases a <;> rfl

theorem truthyGt_none_left (b : Option Time) : truthyGt none b = false := by
  cases b <;> rfl

/-- **C1.** For every write where a current state exists with a non-empty
value and the caller-supplied explicit `last_updated` is strictly earlier
than the current state's `last_updated`, the StateStore is left unchanged
and the single emitted event is `HistoricStateChanged`, carrying the
out-of-order new state as `new_state` and the untouched prior live state
as `old_state`. -/
theorem C1_historic_last_updated_bypasses_store
    (now : Time) (fresh : Context) (states : StateStore) (eid v : String)
    (attrs : List (String × String)) (ctx : Option Context)
    (lc : Option Time) (t tu : Time) (os : HAState)
    (h1 : alGet states (pyLower eid) = some os)
    (h2 : os.state ≠ "")
    (h3 : os.last_updated = some tu)
    (h4 : t < tu) :
    state_async_set now fresh states eid v attrs ctx lc (some t) =
      (states,
       [{ event_type := EVENT_HISTORIC_STATE_CHANGED
          entity_id := (pyLower eid)
          old_state := some os
          new_state := mkState now (pyLower eid) v attrs lc (some t) (ctx.getD fresh)
          context := ctx.getD fresh }]) := by
  have htu : truthyGt os.last_updated (some t) = true := by
    rw [h3]
    simp [truthyGt]
    exact h4
  simp [state_async_set, h1, h2, htu]

/-- Closed witness for `C1_historic_last_updated_bypasses_store`. -/
theorem C1_witness :
    state_async_set 100 ⟨0⟩
        [("sensor.a", { entity_id := "sensor.a", state := "20", attributes := [],
                        last_changed := some 50, last_updated := some 50,
                        context := ⟨0⟩ })]
        "sensor.a" "19" [] none none (some 10) =
      ([("sensor.a", { entity_id := "sensor.a", state := "20", attributes := [],
                       last_changed := some 50, last_updated := some 50,
                       context := ⟨0⟩ })],
       [{ event_type := EVENT_HISTORIC_STATE_CHANGED
          entity_id := (pyLower "sensor.a")
          old_state := some { entity_id := "sensor.a", state := "20",
                              attributes := [], last_changed := some 50,
                              last_updated := some 50, context := ⟨0⟩ }
          new_state := mkState 100 (pyLower "sensor.a") "19" [] none (some 10) ⟨0⟩
          context := ⟨0⟩ }]) :=
  C1_historic_last_updated_bypasses_store 100 ⟨0⟩ _ "sensor.a" "19" [] none
    none 10 50 _ (by decide) (by decide) rfl (by decide)

/-- **C2 (counterexample).** The claim says that on a first write the
caller-supplied explicit `last_changed` is stored verbatim.  It is not:
`state_async_set` forces `last_changed` to `None` whenever no current
state exists (`historic_entity.py` lines 482-483), so a first write with
`last_changed = 5, last_updated = 10` stores `last_changed = 10`. -/
theorem C2_counterexample :
    ((alGet (state_async_set 100 ⟨0⟩ [] "sensor.a" "20" [] none
        (some 5) (some 10)).1 "sensor.a").map HAState.last_changed =
      some (some 10)) ∧
    some (some (10 : Time)) ≠ some (some (5 : Time)) := by
  constructor
  · decide
  · decide

/-- **C2 (amended).** On a first write (no current state), the write is
accepted unconditionally and emits `StateChanged`; the caller-supplied
explicit `last_updated` is stored verbatim, but a caller-supplied explicit
`last_changed` is discarded: the stored `last_changed` is resolved by the
store to the resolved `last_updated` (and to "now" when no `last_updated`
was supplied either). -/
theorem C2_first_write_discards_last_changed
    (now : Time) (fresh : Context) (states : StateStore) (eid v : String)
    (attrs : List (String × String)) (ctx : Option Context)
    (lc lu : Option Time)
    (h : alGet states (pyLower eid) = none) :
    state_async_set now fresh states eid v attrs ctx lc lu =
      (alSet states (pyLower eid)
        (mkState now (pyLower eid) v attrs none lu (ctx.getD fresh)),
       [{ event_type := EVENT_STATE_CHANGED
          entity_id := (pyLower eid)
          old_state := none
          new_state := mkState now (pyLower eid) v attrs none lu (ctx.getD fresh)
          context := ctx.getD fresh }]) := by
  simp [state_async_set, h]

/-- Closed witness for `C2_first_write_discards_last_changed`. -/
theorem C2_witness :
    state_async_set 100 ⟨0⟩ [] "sensor.a" "20" [] none (some 5) (some 10) =
      (alSet [] (pyLower "sensor.a")
        (mkState 100 (pyLower "sensor.a") "20" [] none (some 10) ⟨0⟩),
       [{ event_type := EVENT_STATE_CHANGED
          entity_id := (pyLower "sensor.a")
          old_state := none
          new_state := mkState 100 (pyLower "sensor.a") "20" [] none (some 10) ⟨0⟩
          context := ⟨0⟩ }]) :=
  C2_first_write_discards_last_changed 100 ⟨0⟩ [] "sensor.a" "20" [] none
    (some 5) (some 10) rfl

/-- **C8.** Every `state_async_set` call, whatever branch it takes,
fires exactly one event on the bus. -/
theorem C8_exactly_one_event_per_write
    (now : Time) (fresh : Context) (states : StateStore) (eid v : String)
    (attrs : List (String × String)) (ctx : Option Context)
    (lc lu : Option Time) :
    (state_async_set now fresh states eid v attrs ctx lc lu).2.length = 1 :=
  rfl

/-- **C9.** When a current state exists but its value is the empty string,
the historic-timestamp comparison is skipped entirely: the write
overwrites the StateStore entry and emits `StateChanged`, even for
arbitrary caller-supplied timestamps. -/
theorem C9_empty_current_value_skips_historic_check
    (now : Time) (fresh : Context) (states : StateStore) (eid v : String)
    (attrs : List (String × String)) (ctx : Option Context)
    (lc lu : Option Time) (os : HAState)
    (h1 : alGet states (pyLower eid) = some os)
    (h2 : os.state = "") :
    state_async_set now fresh states eid v attrs ctx lc lu =
      (alSet states (pyLower eid)
        (mkState now (pyLower eid) v attrs lc lu (ctx.getD fresh)),
       [{ event_type := EVENT_STATE_CHANGED
          entity_id := (pyLower eid)
          old_state := some os
          new_state := mkState now (pyLower eid) v attrs lc lu (ctx.getD fresh)
          context := ctx.getD fresh }]) := by
  simp [state_async_set, h1, h2]

/-- Closed witness for `C9_empty_current_value_skips_historic_check`. -/
theorem C9_witness :
    state_async_set 100 ⟨0⟩
        [("sensor.a", { entity_id := "sensor.a", state := "", attributes := [],
                        last_changed := some 50, last_updated := some 50,
                        context := ⟨0⟩ })]
        "sensor.a" "19" [] none (some 1) (some 2) =
      (alSet [("sensor.a", { entity_id := "sensor.a", state := "",
                             attributes := [], last_changed := some 50,
                             last_updated := some 50, context := ⟨0⟩ })]
        (pyLower "sensor.a")
        (mkState 100 (pyLower "sensor.a") "19" [] (some 1) (some 2) ⟨0⟩),
       [{ event_type := EVENT_STATE_CHANGED
          entity_id := (pyLower "sensor.a")
          old_state := some { entity_id := "sensor.a", state := "",
                              attributes := [], last_changed := some 50,
                              last_updated := some 50, context := ⟨0⟩ }
          new_state := mkState 100 (pyLower "sensor.a") "19" [] (some 1) (some 2) ⟨0⟩
          context := ⟨0⟩ }]) :=
  C9_empty_current_value_skips_historic_check 100 ⟨0⟩ _ "sensor.a" "19" []
    none (some 1) (some 2) _ (by decide) (by decide)

/-- **C10.** (a) A write supplying neither an explicit `last_updated` nor
an explicit `last_changed` is always accepted as current — the StateStore
entry is overwritten and `StateChanged` is emitted — regardless of the
current state's timestamps; (b) the same holds, for arbitrary supplied
timestamps, when the current state's own `last_updated` and `last_changed`
are both unset. -/
theorem C10_no_timestamps_always_accepted :
    (∀ (now : Time) (fresh : Context) (states : StateStore) (eid v : String)
       (attrs : List (String × String)) (ctx : Option Context),
       state_async_set now fresh states eid v attrs ctx none none =
         (alSet states (pyLower eid)
           (mkState now (pyLower eid) v attrs none none (ctx.getD fresh)),
          [{ event_type := EVENT_STATE_CHANGED
             entity_id := (pyLower eid)
             old_state := alGet states (pyLower eid)
             new_state := mkState now (pyLower eid) v attrs none none (ctx.getD fresh)
             context := ctx.getD fresh }])) ∧
    (∀ (now : Time) (fresh : Context) (states : StateStore) (eid v : String)
       (attrs : List (String × String)) (ctx : Option Context)
       (lc lu : Option Time) (os : HAState),
       alGet states (pyLower eid) = some os →
       os.last_updated = none →
       os.last_changed = none →
       state_async_set now fresh states eid v attrs ctx lc lu =
         (alSet states (pyLower eid)
           (mkState now (pyLower eid) v attrs lc lu (ctx.getD fresh)),
          [{ event_type := EVENT_STATE_CHANGED
             entity_id := (pyLower eid)
             old_state := some os
             new_state := mkState now (pyLower eid) v attrs lc lu (ctx.getD fresh)
             context := ctx.getD fresh }])) := by
  constructor
  · intro now fresh states eid v attrs ctx
    cases h : alGet states (pyLower eid) with
    | none => simp [state_async_set, h]
    | some os =>
      by_cases hs : os.state = ""
      · simp [state_async_set, h, hs]
      · simp [state_async_set, h, hs, truthyGt_none_right]
  · intro now fresh states eid v attrs ctx lc lu os h hlu hlc
    by_cases hs : os.state = ""
    · simp [state_async_set, h, hs]
    · simp [state_async_set, h, hs, hlu, hlc, truthyGt_none_left]

/-- Closed witness for `C10_no_timestamps_always_accepted`. -/
theorem C10_witness :
    (state_async_set 100 ⟨0⟩
        [("sensor.a", { entity_id := "sensor.a", state := "20",
                        attributes := [], last_changed := some 50,
                        last_updated := some 50, context := ⟨0⟩ })]
        "sensor.a" "19" [] none none none =
      (alSet [("sensor.a", { entity_id := "sensor.a", state := "20",
                             attributes := [], last_changed := some 50,
                             last_updated := some 50, context := ⟨0⟩ })]
        (pyLower "sensor.a")
        (mkState 100 (pyLower "sensor.a") "19" [] none none ⟨0⟩),
       [{ event_type := EVENT_STATE_CHANGED
          entity_id := (pyLower "sensor.a")
          old_state := alGet
            [("sensor.a", { entity_id := "sensor.a", state := "20",
                            attributes := [], last_changed := some 50,
                            last_updated := some 50, context := ⟨0⟩ })]
            (pyLower "sensor.a")
          new_state := mkState 100 (pyLower "sensor.a") "19" [] none none ⟨0⟩
          context := ⟨0⟩ }])) ∧
    (state_async_set 100 ⟨0⟩
        [("sensor.a", { entity_id := "sensor.a", state := "20",
                        attributes := [], last_changed := none,
                        last_updated := none, context := ⟨0⟩ })]
        "sensor.a" "19" [] none (some 1) (some 2) =
      (alSet [("sensor.a", { entity_id := "sensor.a", state := "20",
                             attributes := [], last_changed := none,
                             last_updated := none, context := ⟨0⟩ })]
        (pyLower "sensor.a")
        (mkState 100 (pyLower "sensor.a") "19" [] (some 1) (some 2) ⟨0⟩),
       [{ event_type := EVENT_STATE_CHANGED
          entity_id := (pyLower "sensor.a")
          old_state := some { entity_id := "sensor.a", state := "20",
                              attributes := [], last_changed := none,
                              last_updated := none, context := ⟨0⟩ }
          new_state := mkState 100 (pyLower "sensor.a") "19" [] (some 1) (some 2) ⟨0⟩
          context := ⟨0⟩ }])) :=
  ⟨C10_no_timestamps_always_accepted.1 100 ⟨0⟩ _ "sensor.a" "19" [] none,
   C10_no_timestamps_always_accepted.2 100 ⟨0⟩ _ "sensor.a" "19" [] none
     (some 1) (some 2) _ (by decide) rfl rfl⟩

/-- **C3 (counterexample).** The claim quantifies over all sequences of
writes with strictly increasing explicit `last_updated` and asserts each
emits `StateChanged`.  A second write that also supplies an explicit
`last_changed` earlier than the stored one (here `5 < 10`) is routed to
`HistoricStateChanged` by the `elif` at `historic_entity.py` line 501 even
though its `last_updated` (20) is strictly greater than the previous
call's (10), and the StateStore keeps the first value. -/
theorem C3_counterexample :
    (runWrites 100 ⟨0⟩ "sensor.a" []
        [{ value := "20", attributes := [], context := none,
           last_changed := none, last_updated := some 10 },
         { value := "19", attributes := [], context := none,
           last_changed := some 5, last_updated := some 20 }]).2.map
      FiredEvent.event_type =
      [EVENT_STATE_CHANGED, EVENT_HISTORIC_STATE_CHANGED] ∧
    (alGet (runWrites 100 ⟨0⟩ "sensor.a" []
        [{ value := "20", attributes := [], context := none,
           last_changed := none, last_updated := some 10 },
         { value := "19", attributes := [], context := none,
           last_changed := some 5, last_updated := some 20 }]).1
      "sensor.a").map HAState.state = some "20" := by
  constructor
  · decide
  · decide

/-- The ordering constraint between two consecutive calls of a write
sequence: the later call's explicit `last_updated` is strictly greater. -/
def IncLU (a b : WriteCall) : Prop :=
  ∀ x y, a.last_updated = some x → b.last_updated = some y → x < y

/-- A write with no explicit `last_changed` whose explicit `last_updated`
does not lose the truthiness-guarded comparison is accepted: the store is
overwritten and `StateChanged` fires. -/
theorem step_accepted (now : Time) (fresh : Context) (states : StateStore)
    (eid v : String) (attrs : List (String × String)) (ctx : Option Context)
    (lu : Option Time)
    (hcase : alGet states (pyLower eid) = none ∨
      ∃ s, alGet states (pyLower eid) = some s ∧
        truthyGt s.last_updated lu = false) :
    state_async_set now fresh states eid v attrs ctx none lu =
      (alSet states (pyLower eid)
        (mkState now (pyLower eid) v attrs none lu (ctx.getD fresh)),
       [{ event_type := EVENT_STATE_CHANGED
          entity_id := (pyLower eid)
          old_state := alGet states (pyLower eid)
          new_state := mkState now (pyLower eid) v attrs none lu (ctx.getD fresh)
          context := ctx.getD fresh }]) := by
  rcases hcase with h | ⟨s, h, hgt⟩
  · simp [state_async_set, h]
  · by_cases hs : s.state = ""
    · simp [state_async_set, h, hs]
    · simp [state_async_set, h, hs, hgt, truthyGt_none_right]

/-- Auxiliary induction for the amended C3: with per-call `last_changed`
absent and strictly increasing explicit `last_updated`, starting from a
store whose entry (if any) is strictly older than the first call, every
call is accepted and fires `StateChanged`, and the final store holds the
last call's state. -/
theorem runWrites_increasing_aux (now : Time) (fresh : Context) (eid : String) :
    ∀ (calls : List WriteCall) (states : StateStore),
    (∀ c ∈ calls, c.last_changed = none) →
    (∀ c ∈ calls, c.last_updated.isSome) →
    List.Chain' IncLU calls →
    (alGet states (pyLower eid) = none ∨
      ∃ s u, alGet states (pyLower eid) = some s ∧ s.last_updated = some u ∧
        ∀ c0, calls.head? = some c0 → ∀ y, c0.last_updated = some y → u < y) →
    (runWrites now fresh eid states calls).2.map FiredEvent.event_type =
        List.replicate calls.length EVENT_STATE_CHANGED ∧
    ∀ lastc, calls.getLast? = some lastc →
      alGet (runWrites now fresh eid states calls).1 (pyLower eid) =
        some (mkState now (pyLower eid) lastc.value lastc.attributes none
          lastc.last_updated (lastc.context.getD fresh)) := by
  intro calls
  induction calls with
  | nil =>
    intro states _ _ _ _
    constructor
    · rfl
    · intro lastc h
      simp at h
  | cons c cs ih =>
    intro states hlc hlu hchain hinv
    have hlc0 : c.last_changed = none := hlc c (by simp)
    obtain ⟨y, hy⟩ : ∃ y, c.last_updated = some y := by
      have := hlu c (by simp)
      cases h : c.last_updated with
      | none => rw [h] at this; simp at this
      | some y => exact ⟨y, rfl⟩
    have hstep : state_async_set now fresh states eid c.value c.attributes
        c.context c.last_changed c.last_updated =
        (alSet states (pyLower eid)
          (mkState now (pyLower eid) c.value c.attributes none c.last_updated
            (c.context.getD fresh)),
         [{ event_type := EVENT_STATE_CHANGED
            entity_id := (pyLower eid)
            old_state := alGet states (pyLower eid)
            new_state := mkState now (pyLower eid) c.value c.attributes none
              c.last_updated (c.context.getD fresh)
            context := c.context.getD fresh }]) := by
      rw [hlc0]
      apply step_accepted
      rcases hinv with h | ⟨s, u, hs, hu, hlt⟩
      · exact Or.inl h
      · refine Or.inr ⟨s, hs, ?_⟩
        have huy : u < y := hlt c rfl y hy
        rw [hu, hy]
        simp [truthyGt]
        exact le_of_lt huy
    set st := mkState now (pyLower eid) c.value c.attributes none
        c.last_updated (c.context.getD fresh) with hst
    have hrun : runWrites now fresh eid states (c :: cs) =
        ((runWrites now fresh eid (alSet states (pyLower eid) st) cs).1,
         [{ event_type := EVENT_STATE_CHANGED
            entity_id := (pyLower eid)
            old_state := alGet states (pyLower eid)
            new_state := st
            context := c.context.getD fresh }] ++
           (runWrites now fresh eid (alSet states (pyLower eid) st) cs).2) := by
      simp only [runWrites, hstep]
    have hnext := ih (alSet states (pyLower eid) st)
      (fun c' hc' => hlc c' (by simp [hc']))
      (fun c' hc' => hlu c' (by simp [hc']))
      hchain.tail
      (by
        refine Or.inr ⟨st, y, alGet_alSet_self states (pyLower eid) st, ?_, ?_⟩
        · rw [hst]
          simp [mkState, hy]
        · intro c0 hc0 y' hy'
          cases cs with
          | nil => simp at hc0
          | cons c' cs' =>
            simp at hc0
            have hrel : IncLU c c0 := hc0 ▸ (List.chain'_cons.mp hchain).1
            exact hrel y y' hy hy')
    refine ⟨?_, ?_⟩
    · rw [hrun]
      simp only [List.map_append, List.length_cons, List.map_cons,
        List.map_nil, hnext.1]
      rfl
    · intro lastc hlast
      cases cs with
      | nil =>
        simp at hlast
        subst hlast
        rw [hrun]
        simp only [runWrites]
        exact alGet_alSet_self states (pyLower eid) st
      | cons c' cs' =>
        rw [List.getLast?_cons_cons] at hlast
        rw [hrun]
        exact hnext.2 lastc hlast

/-- **C3 (amended).** For every sequence of writes to one entity, starting
when the StateStore has no entry for it, in which each call supplies an
explicit `last_updated` strictly greater than the previous call's and
supplies no explicit `last_changed`, after each call (equivalently: for
every prefix, all of which satisfy the same hypotheses) the StateStore
maps the entity to the state of the most recent write, and every call
emits `StateChanged`. -/
theorem C3_increasing_writes_stay_current (now : Time) (fresh : Context)
    (eid : String) (states : StateStore) (calls : List WriteCall)
    (h0 : alGet states (pyLower eid) = none)
    (hlc : ∀ c ∈ calls, c.last_changed = none)
    (hlu : ∀ c ∈ calls, c.last_updated.isSome)
    (hchain : List.Chain' IncLU calls) :
    (runWrites now fresh eid states calls).2.map FiredEvent.event_type =
        List.replicate calls.length EVENT_STATE_CHANGED ∧
    ∀ lastc, calls.getLast? = some lastc →
      alGet (runWrites now fresh eid states calls).1 (pyLower eid) =
        some (mkState now (pyLower eid) lastc.value lastc.attributes none
          lastc.last_updated (lastc.context.getD fresh)) :=
  runWrites_increasing_aux now fresh eid calls states hlc hlu hchain (Or.inl h0)

/-- Closed witness for `C3_increasing_writes_stay_current`. -/
theorem C3_witness :
    (runWrites 100 ⟨0⟩ "sensor.a" []
        [{ value := "20", attributes := [], context := none,
           last_changed := none, last_updated := some 10 },
         { value := "19", attributes := [], context := none,
           last_changed := none, last_updated := some 20 }]).2.map
      FiredEvent.event_type = List.replicate 2 EVENT_STATE_CHANGED ∧
    ∀ lastc,
      ([{ value := "20", attributes := [], context := none,
          last_changed := none, last_updated := some 10 },
        { value := "19", attributes := [], context := none,
          last_changed := none, last_updated := some 20 }] :
          List WriteCall).getLast? = some lastc →
      alGet (runWrites 100 ⟨0⟩ "sensor.a" []
          [{ value := "20", attributes := [], context := none,
             last_changed := none, last_updated := some 10 },
           { value := "19", attributes := [], context := none,
             last_changed := none, last_updated := some 20 }]).1
        (pyLower "sensor.a") =
        some (mkState 100 (pyLower "sensor.a") lastc.value lastc.attributes
          none lastc.last_updated (lastc.context.getD ⟨0⟩)) :=
  C3_increasing_writes_stay_current 100 ⟨0⟩ "sensor.a" []
    [{ value := "20", attributes := [], context := none,
       last_changed := none, last_updated := some 10 },
     { value := "19", attributes := [], context := none,
       last_changed := none, last_updated := some 20 }]
    rfl
    (by intro c hc; simp at hc; rcases hc with h | h <;> simp [h])
    (by intro c hc; simp at hc; rcases hc with h | h <;> simp [h])
    (by
      constructor
      · intro x z hx hz
        simp at hx hz
        subst hx
        subst hz
        norm_num
      · simp [List.Chain'])

end HistoricEntity

namespace Recorder

/-- `homeassistant.components.recorder.CONNECT_RETRY_WAIT` (an external
constant: the fixed backoff in seconds between storage attempts). -/
def CONNECT_RETRY_WAIT : Nat := 3

/-- One event as seen by the recorder worker (`recorder.py` lines
135-202).  `entity_id` is `event.data.get(ATTR_ENTITY_ID)`.  The two
serializability flags model whether the external
`Events.from_event` / `States.from_event` calls succeed or raise
`TypeError`/`ValueError` (JSON serialization of the event payload and of
the new state, respectively) — a fixed property of the event's data
shape, identical on every retry. -/
structure REvent where
  event_type : String
  entity_id : Option String
  eventSerializable : Bool
  stateSerializable : Bool
deriving DecidableEq, Repr

/-- An item of the recorder queue: the `None` stop sentinel, a
`PurgeTask`, or a regular event. -/
inductive QueueItem
  | sentinel
  | purgeTask
  | event (e : REvent)
deriving DecidableEq, Repr

/-- The observable effects of processing one dequeued item, in order. -/
inductive Effect
  | taskDone
  | purgeRun
  | sleep (secs : Nat)
  | logWarnEventNotSerializable
  | logWarnStateNotSerializable
  | logErrorConnectivity
  | logErrorSaving
  | logGivingUp
  | storeEventRow
  | storeStateRow
deriving DecidableEq, Repr

/-- How one `session_scope` pass ends, as decided by the storage layer:
clean, a transient `exc.OperationalError`, or another
`exc.SQLAlchemyError`. -/
inductive AttemptOutcome
  | ok
  | opError
  | sqlError
deriving DecidableEq, Repr

/-- Recorder configuration: excluded event types and the entity filter. -/
structure RecConfig where
  exclude_t : List String
  entity_filter : String → Bool

/-- Result of one commit attempt (the body of the inner retry loop,
`recorder.py` lines 165-196).  `success`/`dataFail` set `updated = True`;
`connFail` retries; `crash` is an uncaught exception escaping `_run`. -/
inductive AttemptRes
  | success (bound : Bool) (effects : List Effect)
  | connFail (effects : List Effect)
  | dataFail (effects : List Effect)
  | crash (effects : List Effect)
deriving DecidableEq, Repr

/-- Whether a state-snapshot row is attempted for this event
(`recorder.py` lines 175-176). -/
def isStateEvent (e : REvent) : Bool :=
  e.event_type = EVENT_STATE_CHANGED ∨ e.event_type = EVENT_HISTORIC_STATE_CHANGED

/-- One commit attempt.  `bound` records whether the `_run`-local variable
`dbevent` has ever been assigned (it is function-scoped in Python, so it
survives across queue items and retries).  When `Events.from_event`
raises (event not serializable) the handler at lines 171-173 only logs,
and the state branch then evaluates `dbevent.event_id` (line 179): if
`dbevent` was never bound this raises `UnboundLocalError`, which none of
the `except` clauses catch — modelled as `crash`.  Transient
`OperationalError` and other `SQLAlchemyError`s are modelled as raised by
the storage layer before any row is durably committed (`session_scope`
rolls the session back on exception, so a failed pass stores nothing). -/
def oneAttempt (e : REvent) (bound : Bool) : AttemptOutcome → AttemptRes
  | .opError => .connFail [.logErrorConnectivity]
  | .sqlError => .dataFail [.logErrorSaving]
  | .ok =>
    if e.eventSerializable then
      if isStateEvent e then
        if e.stateSerializable then
          .success true [.storeEventRow, .storeStateRow]
        else
          .success true [.storeEventRow, .logWarnStateNotSerializable]
      else
        .success true [.storeEventRow]
    else
      if isStateEvent e then
        if e.stateSerializable then
          if bound then
            .success bound [.logWarnEventNotSerializable, .storeStateRow]
          else
            .crash [.logWarnEventNotSerializable]
        else
          .success bound
            [.logWarnEventNotSerializable, .logWarnStateNotSerializable]
      else
        .success bound [.logWarnEventNotSerializable]

/-- Result of the whole retry loop. -/
inductive LoopResult
  | finished (updated : Bool) (bound : Bool) (effects : List Effect)
  | crashed (effects : List Effect)
deriving DecidableEq, Repr

/-- The inner retry loop `while not updated and tries <= 10`
(`recorder.py` lines 160-196): sleeps the fixed backoff before every
attempt but the first; `remaining = 11 - tries` is the loop fuel. -/
def retryGo (e : REvent) (outcomes : Nat → AttemptOutcome) :
    Nat → Nat → Bool → List Effect → LoopResult
  | 0, _, bound, acc => .finished false bound acc
  | remaining + 1, tries, bound, acc =>
    let pre : List Effect :=
      if tries ≠ 1 then [.sleep CONNECT_RETRY_WAIT] else []
    match oneAttempt e bound (outcomes tries) with
    | .success bound' effs => .finished true bound' (acc ++ pre ++ effs)
    | .dataFail effs => .finished true bound (acc ++ pre ++ effs)
    | .connFail effs => retryGo e outcomes remaining (tries + 1) bound
        (acc ++ pre ++ effs)
    | .crash effs => .crashed (acc ++ pre ++ effs)

/-- Ten bounded commit attempts starting at `tries = 1`. -/
def retryLoop (e : REvent) (outcomes : Nat → AttemptOutcome) (bound : Bool) :
    LoopResult :=
  retryGo e outcomes 10 1 bound []

/-- What the outer `while True` loop does after one item: keeps going,
returns (stop sentinel), or dies on an uncaught exception. -/
inductive StepResult
  | continued
  | returned
  | crashed
deriving DecidableEq, Repr

/-- Processing of one regular event: the filters at `recorder.py` lines
147-158, then the retry loop, the giving-up log and the final
`task_done` (lines 198-202). -/
def processEvent (cfg : RecConfig) (outcomes : Nat → AttemptOutcome)
    (bound : Bool) (e : REvent) : StepResult × Bool × List Effect :=
  if e.event_type = EVENT_TIME_CHANGED then
    (.continued, bound, [.taskDone])
  else if e.event_type ∈ cfg.exclude_t then
    (.continued, bound, [.taskDone])
  else if (match e.entity_id with
           | some eid => !cfg.entity_filter eid
           | none => false) then
    (.continued, bound, [.taskDone])
  else
    match retryLoop e outcomes bound with
    | .finished true b eff => (.continued, b, eff ++ [.taskDone])
    | .finished false b eff => (.continued, b, eff ++ [.logGivingUp, .taskDone])
    | .crashed eff => (.crashed, bound, eff)

/-- The body of the outer `while True` loop of `_run` for one dequeued
item (`recorder.py` lines 135-202). -/
def processItem (cfg : RecConfig) (outcomes : Nat → AttemptOutcome)
    (bound : Bool) : QueueItem → StepResult × Bool × List Effect
  | .sentinel => (.returned, bound, [.taskDone])
  | .purgeTask => (.continued, bound, [.purgeRun, .taskDone])
  | .event e => processEvent cfg outcomes bound e

/-- The poison item: a state-changed event whose event payload is not
JSON-serializable while its new state is. -/
def poisonEvent : REvent :=
  { event_type := EVENT_STATE_CHANGED
    entity_id := some "sensor.a"
    eventSerializable := false
    stateSerializable := true }

/-- **C4 (code bug).** The claim — every dequeued item is acknowledged
with `task_done` exactly once regardless of outcome — is the code's
clear intent (the spec adds "so the queue never blocks indefinitely on a
poison item"), but the code violates it: for a state-changed event whose
payload is not serializable (while the state is), dequeued before any
event was ever committed, `dbstate.event_id = dbevent.event_id`
(line 179) raises `UnboundLocalError`, no `except` clause catches it, the
worker dies and `task_done` is never called.  This theorem evaluates the
embedded loop body at that failing input: the step crashes and the
effect trace contains zero `taskDone` acknowledgments. -/
theorem C4_poison_item_crashes_without_task_done :
    processItem { exclude_t := [], entity_filter := fun _ => true }
        (fun _ => .ok) false (.event poisonEvent) =
      (.crashed, false, [.logWarnEventNotSerializable]) ∧
    (processItem { exclude_t := [], entity_filter := fun _ => true }
        (fun _ => .ok) false (.event poisonEvent)).2.2.count .taskDone = 0 := by
  constructor
  · rfl
  · rfl

/-- **C5.** A regular event whose commit fails with a transient
connectivity error on all ten attempts: the worker sleeps the fixed
backoff between consecutive attempts (nine sleeps of
`CONNECT_RETRY_WAIT`), stores zero rows, logs exactly one "giving up"
line, acknowledges the item exactly once, and continues with the next
queue item (never fatal). -/
theorem C5_retry_exhaustion_drops_and_continues (cfg : RecConfig)
    (e : REvent) (outcomes : Nat → AttemptOutcome) (bound : Bool)
    (h1 : e.event_type ≠ EVENT_TIME_CHANGED)
    (h2 : e.event_type ∉ cfg.exclude_t)
    (h3 : ∀ eid, e.entity_id = some eid → cfg.entity_filter eid = true)
    (hfail : ∀ i, 1 ≤ i → i ≤ 10 → outcomes i = .opError) :
    (processItem cfg outcomes bound (.event e)).1 = .continued ∧
    (processItem cfg outcomes bound (.event e)).2.2.count .storeEventRow = 0 ∧
    (processItem cfg outcomes bound (.event e)).2.2.count .storeStateRow = 0 ∧
    (processItem cfg outcomes bound (.event e)).2.2.count .logGivingUp = 1 ∧
    (processItem cfg outcomes bound (.event e)).2.2.count
      (.sleep CONNECT_RETRY_WAIT) = 9 ∧
    (processItem cfg outcomes bound (.event e)).2.2.count .taskDone = 1 := by
  have o1 := hfail 1 (by norm_num) (by norm_num)
  have o2 := hfail 2 (by norm_num) (by norm_num)
  have o3 := hfail 3 (by norm_num) (by norm_num)
  have o4 := hfail 4 (by norm_num) (by norm_num)
  have o5 := hfail 5 (by norm_num) (by norm_num)
  have o6 := hfail 6 (by norm_num) (by norm_num)
  have o7 := hfail 7 (by norm_num) (by norm_num)
  have o8 := hfail 8 (by norm_num) (by norm_num)
  have o9 := hfail 9 (by norm_num) (by norm_num)
  have o10 := hfail 10 (by norm_num) (by norm_num)
  have hloop : retryLoop e outcomes bound =
      .finished false bound
        ([.logErrorConnectivity] ++
         (List.replicate 9 [Effect.sleep CONNECT_RETRY_WAIT,
            Effect.logErrorConnectivity]).flatten) := by
    simp only [retryLoop, retryGo, o1, o2, o3, o4, o5, o6, o7, o8, o9, o10,
      oneAttempt]
    rfl
  have hent : (match e.entity_id with
               | some eid => !cfg.entity_filter eid
               | none => false) = false := by
    cases hid : e.entity_id with
    | none => rfl
    | some eid => simp [h3 eid hid]
  simp only [processItem, processEvent, h1, h2, hent, hloop,
    if_false, ite_false]
  refine ⟨?_, ?_, ?_, ?_, ?_, ?_⟩ <;> simp [h1, h2]

/-- Closed witness for `C5_retry_exhaustion_drops_and_continues`. -/
theorem C5_witness :
    let cfg : RecConfig := { exclude_t := [], entity_filter := fun _ => true }
    let e : REvent := { event_type := EVENT_STATE_CHANGED,
                        entity_id := some "sensor.a",
                        eventSerializable := true, stateSerializable := true }
    let outcomes : Nat → AttemptOutcome := fun _ => .opError
    (processItem cfg outcomes false (.event e)).1 = .continued ∧
    (processItem cfg outcomes false (.event e)).2.2.count .storeEventRow = 0 ∧
    (processItem cfg outcomes false (.event e)).2.2.count .storeStateRow = 0 ∧
    (processItem cfg outcomes false (.event e)).2.2.count .logGivingUp = 1 ∧
    (processItem cfg outcomes false (.event e)).2.2.count
      (.sleep CONNECT_RETRY_WAIT) = 9 ∧
    (processItem cfg outcomes false (.event e)).2.2.count .taskDone = 1 :=
  C5_retry_exhaustion_drops_and_continues
    { exclude_t := [], entity_filter := fun _ => true }
    { event_type := EVENT_STATE_CHANGED, entity_id := some "sensor.a",
      eventSerializable := true, stateSerializable := true }
    (fun _ => .opError) false
    (by decide)
    (by simp)
    (fun _ _ => rfl)
    (fun _ _ _ => rfl)

end Recorder

namespace Influx

/-- Timestamps on the exporter side (`datetime` instants). -/
abbrev Time := Nat

/-- `homeassistant.const.STATE_UNKNOWN`. -/
def STATE_UNKNOWN : String := "unknown"

/-- `homeassistant.const.STATE_UNAVAILABLE`. -/
def STATE_UNAVAILABLE : String := "unavailable"

/-- A Python float as far as this code inspects one: a finite value
(modelled exactly as a rational; the overflow of enormous decimal
literals to infinity is not modelled), the two infinities, or NaN. -/
inductive PyFloat
  | finite (q : ℚ)
  | inf
  | ninf
  | nan
deriving DecidableEq, Repr

/-- `math.isfinite`. -/
def PyFloat.isfinite : PyFloat → Bool
  | .finite _ => true
  | _ => false

/-- Digits of a decimal literal to a natural. -/
def digitsToNat (cs : List Char) : Nat :=
  cs.foldl (fun a c => a * 10 + (c.toNat - 48)) 0

/-- Parse an optional exponent suffix `e[+-]digits` (already
lower-cased input). -/
def parseExp : List Char → Option Int
  | [] => some 0
  | 'e' :: r =>
    match r with
    | '+' :: d => if d ≠ [] ∧ d.all Char.isDigit then some (digitsToNat d) else none
    | '-' :: d => if d ≠ [] ∧ d.all Char.isDigit then some (-(digitsToNat d : Int)) else none
    | d => if d ≠ [] ∧ d.all Char.isDigit then some (digitsToNat d) else none
  | _ => none

/-- Parse the unsigned part of a float literal: `digits[.digits][exp]`,
requiring at least one mantissa digit. -/
def parseUnsigned (cs : List Char) : Option ℚ :=
  let intPart := cs.takeWhile Char.isDigit
  let rest1 := cs.dropWhile Char.isDigit
  let fracAndRest : List Char × List Char :=
    match rest1 with
    | '.' :: r2 => (r2.takeWhile Char.isDigit, r2.dropWhile Char.isDigit)
    | _ => ([], rest1)
  let fracPart := fracAndRest.1
  let rest2 := fracAndRest.2
  if intPart = [] ∧ fracPart = [] then none
  else
    match parseExp rest2 with
    | none => none
    | some e =>
      some (((digitsToNat intPart : ℚ) +
        (digitsToNat fracPart : ℚ) / ((10 : ℚ) ^ fracPart.length)) *
        ((10 : ℚ) ^ e))

/-- Model of Python `float(s)` on a string: strips whitespace, accepts an
optional sign, `inf`/`infinity`/`nan` (case-insensitive) and decimal
literals with optional fraction and exponent; `none` models the
`ValueError` raise. -/
def pyFloatOfString (s : String) : Option PyFloat :=
  let cs := ((s.data.dropWhile Char.isWhitespace).reverse.dropWhile
    Char.isWhitespace).reverse
  let signed : Bool × List Char :=
    match cs with
    | '+' :: r => (false, r)
    | '-' :: r => (true, r)
    | r => (false, r)
  let neg := signed.1
  let body := signed.2.map lowerChar
  if body = "inf".data ∨ body = "infinity".data then
    some (if neg then .ninf else .inf)
  else if body = "nan".data then
    some .nan
  else
    match parseUnsigned body with
    | none => none
    | some q => some (.finite (if neg then -q else q))

/-- A Python attribute value as far as this code inspects one: either an
actual string, or any other object `obj f r` where `f` models the result
of `float(value)` (`none` = raises) and `r` models `str(value)`. -/
inductive AttrValue
  | str (s : String)
  | obj (asFloat : Option PyFloat) (asStr : String)
deriving DecidableEq, Repr

/-- Python `float(value)`. -/
def AttrValue.pyFloat : AttrValue → Option PyFloat
  | .str s => pyFloatOfString s
  | .obj f _ => f

/-- Python `str(value)`. -/
def AttrValue.pyStr : AttrValue → String
  | .str s => s
  | .obj _ r => r

/-- Python `value in (None, '')` for a present value. -/
def AttrValue.isEmptyStr : AttrValue → Bool
  | .str s => s = ""
  | .obj _ _ => false

/-- `RE_DIGIT_TAIL` (`^[^\.]*\d+\.?\d*$` from the influxdb component):
matches iff the string has no dot and ends in a digit, or exactly one
dot immediately preceded by a digit and followed only by digits. -/
def reDigitTailMatch (s : String) : Bool :=
  match s.data.splitOn '.' with
  | [a] => (a.getLast?.map Char.isDigit).getD false
  | [a, b] => ((a.getLast?.map Char.isDigit).getD false) && b.all Char.isDigit
  | _ => false

/-- `RE_DECIMAL.sub('', s)` (`[^\d.]+` replaced by nothing): keep only
digits and dots. -/
def cleanDecimal (s : String) : String :=
  String.mk (s.data.filter (fun c => c.isDigit || c = '.'))

/-- `float(RE_DECIMAL.sub('', new_value))`; on a `RE_DIGIT_TAIL` match
the cleaned string is always a valid float literal, so the fallback
branch is unreachable. -/
def pyFloatOfCleaned (s : String) : PyFloat :=
  match pyFloatOfString (cleanDecimal s) with
  | some f => f
  | none => .nan

/-- A value stored in the point's `fields` dict. -/
inductive FieldValue
  | str (v : String)
  | num (v : PyFloat)
deriving DecidableEq, Repr

/-- Split an entity id at its first dot (`split_entity_id`). -/
def splitFirstDot : List Char → List Char × List Char
  | [] => ([], [])
  | '.' :: t => ([], t)
  | c :: t =>
    let r := splitFirstDot t
    (c :: r.1, r.2)

/-- The `new_state` a mapped event carries: a constructed host `State`
(timestamps always resolved).  `asNumber` models the external helper
composition `float(state_helper.state_as_number(state))` — the
unit-aware numeric coercion — with `none` modelling its `ValueError`. -/
structure ExpState where
  entity_id : String
  state : String
  attributes : List (String × AttrValue)
  last_updated : Time
  asNumber : Option PyFloat
deriving DecidableEq, Repr

/-- `State.domain`. -/
def ExpState.domain (st : ExpState) : String :=
  String.mk (splitFirstDot st.entity_id.data).1

/-- `State.object_id`. -/
def ExpState.object_id (st : ExpState) : String :=
  String.mk (splitFirstDot st.entity_id.data).2

/-- An event as seen by the exporter handler. -/
structure ExpEvent where
  event_type : String
  time_fired : Time
  new_state : Option ExpState
deriving DecidableEq, Repr

/-- The exporter configuration captured by the `event_to_json` closure
(`influxdb.py` lines 100-114).  `component_override` models
`component_config.get(entity_id).get(CONF_OVERRIDE_MEASUREMENT)`
(external `EntityValues` lookup). -/
structure InfluxConf where
  whitelist_e : List String
  whitelist_d : List String
  blacklist_e : List String
  blacklist_d : List String
  tags : List (String × AttrValue)
  tags_attributes : List String
  default_measurement : Option String
  override_measurement : Option String
  component_override : String → Option String

/-- Python truthiness of an optional string (`None` and `''` falsy). -/
def truthyOptStr : Option String → Bool
  | some s => s ≠ ""
  | none => false

/-- The produced measurement record (`json` dict,
`influxdb.py` lines 178-186). -/
structure MeasurementPoint where
  measurement : AttrValue
  tags : List (String × AttrValue)
  time : Time
  fields : List (String × FieldValue)
deriving DecidableEq, Repr

/-- Outcome of the state-value derivation
(`influxdb.py` lines 146-155). -/
inductive ValueDeriv
  | valueOnly (f : PyFloat)
  | stateAndValue (f : PyFloat)
  | stateOnly
deriving DecidableEq, Repr

/-- `float(state.state)`, falling back to the unit-aware coercion,
falling back to state-only. -/
def deriveValue (st : ExpState) : ValueDeriv :=
  match pyFloatOfString st.state with
  | some f => .valueOnly f
  | none =>
    match st.asNumber with
    | some f => .stateAndValue f
    | none => .stateOnly

/-- Measurement-name priority and the `include_uom` flag
(`influxdb.py` lines 157-171): per-entity override, then global
override, then the state's `unit_of_measurement` attribute (clearing
`include_uom`), then the global default, then the entity id. -/
def deriveMeasurement (conf : InfluxConf) (st : ExpState) : AttrValue × Bool :=
  let defaultPart : AttrValue × Bool :=
    if truthyOptStr conf.default_measurement then
      (.str (conf.default_measurement.getD ""), true)
    else
      (.str st.entity_id, true)
  let afterOverride : AttrValue × Bool :=
    if truthyOptStr conf.override_measurement then
      (.str (conf.override_measurement.getD ""), true)
    else
      match alGet st.attributes "unit_of_measurement" with
      | none => defaultPart
      | some v => if v.isEmptyStr then defaultPart else (v, false)
  match conf.component_override st.entity_id with
  | none => afterOverride
  | some m => if m = "" then afterOverride else (.str m, true)

/-- The field write for one non-tag attribute (`influxdb.py` lines
203-212): store the value as a float field under `key`, or as a string
under `key + "_str"` together with a heuristic numeric re-extraction
from a digit-tailed string. -/
def attrFieldsUpdate (fields : List (String × FieldValue)) (key : String)
    (value : AttrValue) : List (String × FieldValue) :=
  match value.pyFloat with
  | some f => alSet fields key (.num f)
  | none =>
    let new_value := value.pyStr
    let f1 := alSet fields (key ++ "_str") (.str new_value)
    if reDigitTailMatch new_value then
      alSet f1 key (.num (pyFloatOfCleaned new_value))
    else
      f1

/-- The finiteness cleanup (`influxdb.py` lines 214-219): delete the
field at `key` when it holds a non-finite float; a missing key
(`KeyError`) or a string there (`TypeError`) is ignored. -/
def dropNonfinite (fields : List (String × FieldValue)) (key : String) :
    List (String × FieldValue) :=
  match alGet fields key with
  | some (.num f) => if f.isfinite = false then alErase fields key else fields
  | _ => fields

/-- One iteration of the attribute loop (`influxdb.py` lines 192-219),
acting on the `(tags, fields)` accumulator: tag-attributes go to tags;
the unit-of-measurement key is skipped when it already supplied the
measurement name; otherwise the value is written to the fields under the
key (renamed `key + "_"` on collision) and a resulting non-finite
numeric field is deleted. -/
def attrStep (tags_attributes : List String) (include_uom : Bool)
    (acc : List (String × AttrValue) × List (String × FieldValue))
    (kv : String × AttrValue) :
    List (String × AttrValue) × List (String × FieldValue) :=
  if kv.1 ∈ tags_attributes then
    (alSet acc.1 kv.1 kv.2, acc.2)
  else if kv.1 = "unit_of_measurement" ∧ include_uom = false then
    acc
  else
    let key := if (alGet acc.2 kv.1).isSome then kv.1 ++ "_" else kv.1
    (acc.1, dropNonfinite (attrFieldsUpdate acc.2 key kv.2) key)

/-- `event_to_json` (`influxdb.py` lines 132-223): filter, derive value,
measurement name and timestamp, then build tags and fields. -/
def event_to_json (conf : InfluxConf) (event : ExpEvent) :
    Option MeasurementPoint :=
  match event.new_state with
  | none => none
  | some state =>
    if state.state = STATE_UNKNOWN ∨ state.state = "" ∨
        state.state = STATE_UNAVAILABLE ∨
        state.entity_id ∈ conf.blacklist_e ∨
        state.domain ∈ conf.blacklist_d then
      none
    else if (conf.whitelist_e ≠ [] ∨ conf.whitelist_d ≠ []) ∧
        state.entity_id ∉ conf.whitelist_e ∧
        state.domain ∉ conf.whitelist_d then
      none
    else
      let vd := deriveValue state
      let md := deriveMeasurement conf state
      let event_time :=
        if event.event_type = EVENT_HISTORIC_STATE_CHANGED then
          state.last_updated
        else
          event.time_fired
      let tags0 : List (String × AttrValue) :=
        [("domain", .str state.domain), ("entity_id", .str state.object_id)]
      let fields0 : List (String × FieldValue) :=
        match vd with
        | .valueOnly f => [("value", .num f)]
        | .stateAndValue f => [("state", .str state.state), ("value", .num f)]
        | .stateOnly => [("state", .str state.state)]
      let r := state.attributes.foldl (attrStep conf.tags_attributes md.2)
        (tags0, fields0)
      let tagsF := conf.tags.foldl (fun t kv => alSet t kv.1 kv.2) r.1
      some { measurement := md.1, tags := tagsF, time := event_time,
             fields := r.2 }

/-- **C6.** For every event the exporter maps to a point: if the event
kind is `HistoricStateChanged` the point's timestamp is the new state's
`last_updated`; for every other kind it is the event's fire time. -/
theorem C6_timestamp_from_event_kind (conf : InfluxConf) (event : ExpEvent)
    (st : ExpState) (p : MeasurementPoint)
    (hst : event.new_state = some st)
    (hj : event_to_json conf event = some p) :
    p.time = (if event.event_type = EVENT_HISTORIC_STATE_CHANGED then
      st.last_updated else event.time_fired) := by
  simp only [event_to_json, hst] at hj
  split_ifs at hj with h1 h2 h3
  · have hp := Option.some.inj hj
    rw [← hp, if_pos h3]
  · have hp := Option.some.inj hj
    rw [← hp, if_neg h3]

/-- An empty exporter configuration: no filters, tags, tag-attributes or
measurement overrides. -/
def conf0 : InfluxConf :=
  { whitelist_e := [], whitelist_d := [], blacklist_e := [],
    blacklist_d := [], tags := [], tags_attributes := [],
    default_measurement := none, override_measurement := none,
    component_override := fun _ => none }

/-- A concrete historic event for the C6 witness. -/
def evC6 : ExpEvent :=
  { event_type := EVENT_HISTORIC_STATE_CHANGED
    time_fired := 99
    new_state := some { entity_id := "sensor.temp", state := "21.5",
                        attributes := [], last_updated := 42,
                        asNumber := none } }

/-- Closed witness for `C6_timestamp_from_event_kind`. -/
theorem C6_witness :
    (event_to_json conf0 evC6).map MeasurementPoint.time = some 42 := by
  cases hj : event_to_json conf0 evC6 with
  | none => exact absurd hj (by decide)
  | some p =>
    have h := C6_timestamp_from_event_kind conf0 evC6
      { entity_id := "sensor.temp", state := "21.5", attributes := [],
        last_updated := 42, asNumber := none } p rfl hj
    show some p.time = some 42
    rw [h]
    rfl

/-- The event for the C7 counterexample: one attribute whose value
coerces to a non-finite float. -/
def evC7 : ExpEvent :=
  { event_type := EVENT_STATE_CHANGED
    time_fired := 99
    new_state := some { entity_id := "sensor.power", state := "21",
                        attributes := [("watts", .obj (some .inf) "inf")],
                        last_updated := 42, asNumber := none } }

/-- **C7 (counterexample).** The claim says every attribute of a mapped
event is recoverable from the point's fields, under its key as a number
or under `key + "_str"` as a string, never silently lost.  An attribute
whose value coerces to a non-finite float (here `inf`) is stored as a
numeric field and then deleted by the finiteness check
(`influxdb.py` lines 214-217), with no `_str` fallback and no log: the
produced point has neither a `watts` nor a `watts_str` field. -/
theorem C7_counterexample :
    (event_to_json conf0 evC7).map
      (fun pt => (alGet pt.fields "watts", alGet pt.fields "watts_str")) =
      some (none, none) := by
  decide

/-- The keys of `fields` that processing an attribute named `other` can
ever touch are `other` or `other + "_"` (after a collision rename), and
those two suffixed with `"_str"`.  `keysApart key other` says none of
them is `key` or `key + "_str"`, so an attribute named `other` cannot
interfere with the fields recording the attribute named `key`. -/
def keysApart (key other : String) : Prop :=
  other ≠ key ∧
  other ++ "_" ≠ key ∧
  other ++ "_str" ≠ key ∧
  other ++ "_" ++ "_str" ≠ key ∧
  other ≠ key ++ "_str" ∧
  other ++ "_" ≠ key ++ "_str" ∧
  other ++ "_str" ≠ key ++ "_str" ∧
  other ++ "_" ++ "_str" ≠ key ++ "_str"

instance (key other : String) : Decidable (keysApart key other) := by
  unfold keysApart
  infer_instance

/-- Whether the field stored under `k` (if any) is a finite number; a
missing field or a string field counts as finite. -/
def finiteAt (fields : List (String × FieldValue)) (k : String) : Bool :=
  match alGet fields k with
  | some (.num f) => f.isfinite
  | _ => true

theorem ne_append_str (s : String) : s ≠ s ++ "_str" := by
  intro h
  have h2 := congrArg String.length h
  rw [String.length_append] at h2
  have h3 : ("_str" : String).length = 4 := rfl
  omega

theorem attrFieldsUpdate_frame (fields : List (String × FieldValue))
    (key : String) (v : AttrValue) (n : String)
    (hk : key ≠ n) (hks : key ++ "_str" ≠ n) :
    alGet (attrFieldsUpdate fields key v) n = alGet fields n := by
  unfold attrFieldsUpdate
  cases hv : v.pyFloat with
  | some f => exact alGet_alSet_ne _ _ _ _ hk
  | none =>
    cases hd : reDigitTailMatch v.pyStr with
    | true =>
      simp only [hd, if_true]
      rw [alGet_alSet_ne _ _ _ _ hk, alGet_alSet_ne _ _ _ _ hks]
    | false =>
      simp only [hd, Bool.false_eq_true, if_false]
      rw [alGet_alSet_ne _ _ _ _ hks]

theorem dropNonfinite_frame (fields : List (String × FieldValue))
    (key n : String) (hk : key ≠ n) :
    alGet (dropNonfinite fields key) n = alGet fields n := by
  unfold dropNonfinite
  cases h : alGet fields key with
  | none => rfl
  | some fv =>
    cases fv with
    | str s => rfl
    | num f =>
      cases hf : f.isfinite with
      | false =>
        simp only [hf, if_true]
        exact alGet_alErase_ne _ _ _ hk
      | true =>
        simp [hf]

theorem attrStep_frame (ta : List String) (iu : Bool)
    (acc : List (String × AttrValue) × List (String × FieldValue))
    (kv : String × AttrValue) (n : String)
    (h1 : kv.1 ≠ n) (h2 : kv.1 ++ "_" ≠ n)
    (h3 : kv.1 ++ "_str" ≠ n) (h4 : kv.1 ++ "_" ++ "_str" ≠ n) :
    alGet (attrStep ta iu acc kv).2 n = alGet acc.2 n := by
  unfold attrStep
  by_cases ht : kv.1 ∈ ta
  · rw [if_pos ht]
  · rw [if_neg ht]
    by_cases hu : kv.1 = "unit_of_measurement" ∧ iu = false
    · rw [if_pos hu]
    · rw [if_neg hu]
      cases hc : (alGet acc.2 kv.1).isSome with
      | true =>
        simp only [hc, if_true]
        rw [dropNonfinite_frame _ _ _ h2, attrFieldsUpdate_frame _ _ _ _ h2 h4]
      | false =>
        simp only [hc, Bool.false_eq_true, if_false]
        rw [dropNonfinite_frame _ _ _ h1, attrFieldsUpdate_frame _ _ _ _ h1 h3]

theorem foldl_attrStep_frame (ta : List String) (iu : Bool) (n : String) :
    ∀ (attrs : List (String × AttrValue))
      (acc : List (String × AttrValue) × List (String × FieldValue)),
    (∀ kv ∈ attrs, kv.1 ≠ n ∧ kv.1 ++ "_" ≠ n ∧ kv.1 ++ "_str" ≠ n ∧
      kv.1 ++ "_" ++ "_str" ≠ n) →
    alGet (attrs.foldl (attrStep ta iu) acc).2 n = alGet acc.2 n := by
  intro attrs
  induction attrs with
  | nil =>
    intro acc _
    rfl
  | cons kv t ih =>
    intro acc h
    rw [List.foldl_cons,
      ih _ (fun kv' hkv' => h kv' (List.mem_cons_of_mem _ hkv'))]
    obtain ⟨a, b, c, d⟩ := h kv (List.mem_cons_self _ _)
    exact attrStep_frame ta iu acc kv n a b c d

/-- Processing the attribute `(key, v)` when no field named `key` or
`key + "_str"` exists yet: the float path stores the number under `key`
(and deletes it again when non-finite); the string path stores
`str(value)` under `key + "_str"` and leaves under `key` nothing or a
finite number. -/
theorem attrStep_fresh (ta : List String) (iu : Bool)
    (acc : List (String × AttrValue) × List (String × FieldValue))
    (key : String) (v : AttrValue)
    (htag : key ∉ ta) (huom : ¬(key = "unit_of_measurement" ∧ iu = false))
    (hk : alGet acc.2 key = none)
    (hks : alGet acc.2 (key ++ "_str") = none) :
    match v.pyFloat with
    | some f =>
      if f.isfinite = true then
        alGet (attrStep ta iu acc (key, v)).2 key = some (.num f) ∧
        alGet (attrStep ta iu acc (key, v)).2 (key ++ "_str") = none
      else
        alGet (attrStep ta iu acc (key, v)).2 key = none ∧
        alGet (attrStep ta iu acc (key, v)).2 (key ++ "_str") = none
    | none =>
      alGet (attrStep ta iu acc (key, v)).2 (key ++ "_str") =
        some (.str v.pyStr) ∧
      finiteAt (attrStep ta iu acc (key, v)).2 key = true := by
  have hne : key ≠ key ++ "_str" := ne_append_str key
  have hne' : key ++ "_str" ≠ key := fun h => hne h.symm
  have hfalse : (alGet acc.2 key).isSome = false := by rw [hk]; rfl
  have hstep : attrStep ta iu acc (key, v) =
      (acc.1, dropNonfinite (attrFieldsUpdate acc.2 key v) key) := by
    simp only [attrStep]
    rw [if_neg htag, if_neg huom]
    simp only [hfalse, Bool.false_eq_true, if_false]
  rw [hstep]
  cases hv : v.pyFloat with
  | some f =>
    dsimp only
    have hupd : attrFieldsUpdate acc.2 key v = alSet acc.2 key (.num f) := by
      unfold attrFieldsUpdate
      rw [hv]
    rw [hupd]
    cases hf : f.isfinite with
    | true =>
      rw [if_pos rfl]
      have hdrop : dropNonfinite (alSet acc.2 key (.num f)) key =
          alSet acc.2 key (.num f) := by
        unfold dropNonfinite
        rw [alGet_alSet_self]
        simp [hf]
      rw [hdrop]
      exact ⟨alGet_alSet_self _ _ _, by
        rw [alGet_alSet_ne _ _ _ _ hne]
        exact hks⟩
    | false =>
      rw [if_neg Bool.false_ne_true]
      have hdrop : dropNonfinite (alSet acc.2 key (.num f)) key =
          alErase (alSet acc.2 key (.num f)) key := by
        unfold dropNonfinite
        rw [alGet_alSet_self]
        simp [hf]
      rw [hdrop]
      refine ⟨alGet_alErase_self _ _, ?_⟩
      rw [alGet_alErase_ne _ _ _ hne, alGet_alSet_ne _ _ _ _ hne]
      exact hks
  | none =>
    dsimp only
    cases hd : reDigitTailMatch v.pyStr with
    | true =>
      have hupd : attrFieldsUpdate acc.2 key v =
          alSet (alSet acc.2 (key ++ "_str") (.str v.pyStr)) key
            (.num (pyFloatOfCleaned v.pyStr)) := by
        unfold attrFieldsUpdate
        rw [hv]
        simp only [hd, if_true]
      rw [hupd]
      generalize pyFloatOfCleaned v.pyStr = pf
      have hkeyval : alGet (alSet (alSet acc.2 (key ++ "_str")
          (.str v.pyStr)) key (.num pf)) key = some (.num pf) :=
        alGet_alSet_self _ _ _
      by_cases hpf : pf.isfinite = true
      · have hdrop : dropNonfinite (alSet (alSet acc.2 (key ++ "_str")
            (.str v.pyStr)) key (.num pf)) key =
            alSet (alSet acc.2 (key ++ "_str") (.str v.pyStr)) key
              (.num pf) := by
          unfold dropNonfinite
          rw [hkeyval]
          simp [hpf]
        rw [hdrop]
        refine ⟨?_, ?_⟩
        · rw [alGet_alSet_ne _ _ _ _ hne]
          exact alGet_alSet_self _ _ _
        · unfold finiteAt
          rw [hkeyval]
          exact hpf
      · have hpf2 : pf.isfinite = false := by
          cases hh : pf.isfinite
          · rfl
          · exact absurd hh hpf
        have hdrop : dropNonfinite (alSet (alSet acc.2 (key ++ "_str")
            (.str v.pyStr)) key (.num pf)) key =
            alErase (alSet (alSet acc.2 (key ++ "_str") (.str v.pyStr)) key
              (.num pf)) key := by
          unfold dropNonfinite
          rw [hkeyval]
          simp [hpf2]
        rw [hdrop]
        refine ⟨?_, ?_⟩
        · rw [alGet_alErase_ne _ _ _ hne, alGet_alSet_ne _ _ _ _ hne]
          exact alGet_alSet_self _ _ _
        · unfold finiteAt
          rw [alGet_alErase_self]
    | false =>
      have hupd : attrFieldsUpdate acc.2 key v =
          alSet acc.2 (key ++ "_str") (.str v.pyStr) := by
        unfold attrFieldsUpdate
        rw [hv]
        simp only [hd, Bool.false_eq_true, if_false]
      rw [hupd]
      have hkeynone : alGet (alSet acc.2 (key ++ "_str") (.str v.pyStr))
          key = none := by
        rw [alGet_alSet_ne _ _ _ _ hne']
        exact hk
      have hdrop : dropNonfinite (alSet acc.2 (key ++ "_str")
          (.str v.pyStr)) key = alSet acc.2 (key ++ "_str") (.str v.pyStr) := by
        unfold dropNonfinite
        rw [hkeynone]
      rw [hdrop]
      refine ⟨alGet_alSet_self _ _ _, ?_⟩
      unfold finiteAt
      rw [hkeynone]

theorem keysApart_toKey {key other : String} (h : keysApart key other) :
    other ≠ key ∧ other ++ "_" ≠ key ∧ other ++ "_str" ≠ key ∧
    other ++ "_" ++ "_str" ≠ key :=
  ⟨h.1, h.2.1, h.2.2.1, h.2.2.2.1⟩

theorem keysApart_toKeyStr {key other : String} (h : keysApart key other) :
    other ≠ key ++ "_str" ∧ other ++ "_" ≠ key ++ "_str" ∧
    other ++ "_str" ≠ key ++ "_str" ∧
    other ++ "_" ++ "_str" ≠ key ++ "_str" :=
  ⟨h.2.2.2.2.1, h.2.2.2.2.2.1, h.2.2.2.2.2.2.1, h.2.2.2.2.2.2.2⟩

/-- Folding the attribute loop over `pre ++ (key, v) :: post` when no
other attribute's generated field names can touch `key` or
`key + "_str"`. -/
theorem foldl_attrStep_split (ta : List String) (iu : Bool)
    (pre post : List (String × AttrValue)) (key : String) (v : AttrValue)
    (acc : List (String × AttrValue) × List (String × FieldValue))
    (hpre : ∀ kv ∈ pre, keysApart key kv.1)
    (hpost : ∀ kv ∈ post, keysApart key kv.1)
    (htag : key ∉ ta) (huom : ¬(key = "unit_of_measurement" ∧ iu = false))
    (hk : alGet acc.2 key = none)
    (hks : alGet acc.2 (key ++ "_str") = none) :
    match v.pyFloat with
    | some f =>
      if f.isfinite = true then
        alGet ((pre ++ (key, v) :: post).foldl (attrStep ta iu) acc).2 key =
          some (.num f)
      else
        alGet ((pre ++ (key, v) :: post).foldl (attrStep ta iu) acc).2 key =
          none ∧
        alGet ((pre ++ (key, v) :: post).foldl (attrStep ta iu) acc).2
          (key ++ "_str") = none
    | none =>
      alGet ((pre ++ (key, v) :: post).foldl (attrStep ta iu) acc).2
        (key ++ "_str") = some (.str v.pyStr) ∧
      finiteAt ((pre ++ (key, v) :: post).foldl (attrStep ta iu) acc).2 key =
        true := by
  have hF : (pre ++ (key, v) :: post).foldl (attrStep ta iu) acc =
      post.foldl (attrStep ta iu)
        (attrStep ta iu (pre.foldl (attrStep ta iu) acc) (key, v)) := by
    rw [List.foldl_append, List.foldl_cons]
  have hk1 : alGet (pre.foldl (attrStep ta iu) acc).2 key = none := by
    rw [foldl_attrStep_frame ta iu key pre acc
      (fun kv hkv => keysApart_toKey (hpre kv hkv))]
    exact hk
  have hks1 : alGet (pre.foldl (attrStep ta iu) acc).2 (key ++ "_str") =
      none := by
    rw [foldl_attrStep_frame ta iu (key ++ "_str") pre acc
      (fun kv hkv => keysApart_toKeyStr (hpre kv hkv))]
    exact hks
  have hmid := attrStep_fresh ta iu (pre.foldl (attrStep ta iu) acc) key v
    htag huom hk1 hks1
  have hfk : alGet (post.foldl (attrStep ta iu)
      (attrStep ta iu (pre.foldl (attrStep ta iu) acc) (key, v))).2 key =
      alGet (attrStep ta iu (pre.foldl (attrStep ta iu) acc) (key, v)).2
        key :=
    foldl_attrStep_frame ta iu key post _
      (fun kv hkv => keysApart_toKey (hpost kv hkv))
  have hfks : alGet (post.foldl (attrStep ta iu)
      (attrStep ta iu (pre.foldl (attrStep ta iu) acc) (key, v))).2
        (key ++ "_str") =
      alGet (attrStep ta iu (pre.foldl (attrStep ta iu) acc) (key, v)).2
        (key ++ "_str") :=
    foldl_attrStep_frame ta iu (key ++ "_str") post _
      (fun kv hkv => keysApart_toKeyStr (hpost kv hkv))
  rw [hF]
  cases hv : v.pyFloat with
  | some f =>
    dsimp only
    rw [hv] at hmid
    dsimp only at hmid
    cases hf : f.isfinite with
    | true =>
      rw [if_pos rfl]
      rw [hf, if_pos rfl] at hmid
      rw [hfk]
      exact hmid.1
    | false =>
      rw [if_neg Bool.false_ne_true]
      rw [hf, if_neg Bool.false_ne_true] at hmid
      refine ⟨?_, ?_⟩
      · rw [hfk]
        exact hmid.1
      · rw [hfks]
        exact hmid.2
  | none =>
    dsimp only
    rw [hv] at hmid
    dsimp only at hmid
    refine ⟨?_, ?_⟩
    · rw [hfks]
      exact hmid.1
    · have h2 := hmid.2
      unfold finiteAt at h2 ⊢
      rw [hfk]
      exact h2

/-- The attribute round-trip over the full attribute fold, for an
attribute whose key collides with nothing else. -/
theorem fields_roundtrip_core (ta : List String) (iu : Bool)
    (attrs : List (String × AttrValue))
    (T0 : List (String × AttrValue)) (F0 : List (String × FieldValue))
    (key : String) (v : AttrValue)
    (hmem : (key, v) ∈ attrs)
    (hnodup : (attrs.map Prod.fst).Nodup)
    (hapart : ∀ kv ∈ attrs, kv.1 ≠ key → keysApart key kv.1)
    (htag : key ∉ ta) (huom : ¬(key = "unit_of_measurement" ∧ iu = false))
    (hk : alGet F0 key = none) (hks : alGet F0 (key ++ "_str") = none) :
    match v.pyFloat with
    | some f =>
      if f.isfinite = true then
        alGet (attrs.foldl (attrStep ta iu) (T0, F0)).2 key = some (.num f)
      else
        alGet (attrs.foldl (attrStep ta iu) (T0, F0)).2 key = none ∧
        alGet (attrs.foldl (attrStep ta iu) (T0, F0)).2 (key ++ "_str") = none
    | none =>
      alGet (attrs.foldl (attrStep ta iu) (T0, F0)).2 (key ++ "_str") =
        some (.str v.pyStr) ∧
      finiteAt (attrs.foldl (attrStep ta iu) (T0, F0)).2 key = true := by
  obtain ⟨pre, post, hsplit⟩ := List.append_of_mem hmem
  subst hsplit
  have hnd := hnodup
  rw [List.map_append, List.map_cons] at hnd
  obtain ⟨hnd1, hnd2, hdisj⟩ := List.nodup_append.mp hnd
  have hprekey : ∀ kv ∈ pre, kv.1 ≠ key := by
    intro kv hkv he
    exact hdisj (List.mem_map_of_mem Prod.fst hkv)
      (by rw [he]; exact List.mem_cons_self _ _)
  have hpostkey : ∀ kv ∈ post, kv.1 ≠ key := by
    intro kv hkv he
    have hin : kv.1 ∈ post.map Prod.fst := List.mem_map_of_mem Prod.fst hkv
    rw [he] at hin
    exact (List.nodup_cons.mp hnd2).1 hin
  exact foldl_attrStep_split ta iu pre post key v (T0, F0)
    (fun kv hkv => hapart kv (List.mem_append_left _ hkv) (hprekey kv hkv))
    (fun kv hkv => hapart kv
      (List.mem_append_right _ (List.mem_cons_of_mem _ hkv))
      (hpostkey kv hkv))
    htag huom hk hks

/-- **C7 (amended).** For every state attribute `(key, value)` of an
event the exporter maps to a MeasurementPoint — provided `key` is not
configured as a tag attribute, is not the unit-of-measurement key, is
distinct from the built-in `state`/`value` field names (as is
`key + "_str"`), and no other attribute's generated field names collide
with `key` or `key + "_str"` — the attribute is recovered from the
point's fields as follows: a finite float coercion is stored as a
numeric field under `key`; a failed coercion stores the stringified
value under `key + "_str"` (leaving under `key` nothing or a finite
re-extracted number); and a non-finite coercion is dropped from the
fields entirely, so the attribute's key never holds a non-finite
numeric field. -/
theorem C7_attr_fields_roundtrip (conf : InfluxConf) (event : ExpEvent)
    (st : ExpState) (p : MeasurementPoint) (key : String) (v : AttrValue)
    (hst : event.new_state = some st)
    (hj : event_to_json conf event = some p)
    (hmem : (key, v) ∈ st.attributes)
    (hnodup : (st.attributes.map Prod.fst).Nodup)
    (hapart : ∀ kv ∈ st.attributes, kv.1 ≠ key → keysApart key kv.1)
    (htag : key ∉ conf.tags_attributes)
    (huom : key ≠ "unit_of_measurement")
    (hkst : key ≠ "state") (hkval : key ≠ "value")
    (hkstrst : key ++ "_str" ≠ "state")
    (hkstrval : key ++ "_str" ≠ "value") :
    match v.pyFloat with
    | some f =>
      if f.isfinite = true then alGet p.fields key = some (.num f)
      else
        alGet p.fields key = none ∧ alGet p.fields (key ++ "_str") = none
    | none =>
      alGet p.fields (key ++ "_str") = some (.str v.pyStr) ∧
      finiteAt p.fields key = true := by
  have huom2 : ¬(key = "unit_of_measurement" ∧
      (deriveMeasurement conf st).2 = false) := fun h => huom h.1
  have hk0 : alGet (match deriveValue st with
      | ValueDeriv.valueOnly f => [("value", FieldValue.num f)]
      | ValueDeriv.stateAndValue f =>
          [("state", FieldValue.str st.state), ("value", FieldValue.num f)]
      | ValueDeriv.stateOnly => [("state", FieldValue.str st.state)]) key =
      none := by
    cases deriveValue st <;> simp [alGet, Ne.symm hkst, Ne.symm hkval]
  have hks0 : alGet (match deriveValue st with
      | ValueDeriv.valueOnly f => [("value", FieldValue.num f)]
      | ValueDeriv.stateAndValue f =>
          [("state", FieldValue.str st.state), ("value", FieldValue.num f)]
      | ValueDeriv.stateOnly => [("state", FieldValue.str st.state)])
      (key ++ "_str") = none := by
    cases deriveValue st <;> simp [alGet, Ne.symm hkstrst, Ne.symm hkstrval]
  simp only [event_to_json, hst] at hj
  split_ifs at hj with h1 h2 h3 <;>
    (rw [← Option.some.inj hj]
     dsimp only
     exact fields_roundtrip_core conf.tags_attributes
       (deriveMeasurement conf st).2 st.attributes _ _ key v hmem hnodup
       hapart htag huom2 hk0 hks0)

/-- The state for the C7 witness. -/
def stC7W : ExpState :=
  { entity_id := "sensor.power", state := "21",
    attributes := [("temp", .str "21.5"), ("note", .str "hello")],
    last_updated := 42, asNumber := none }

/-- The event for the C7 witness. -/
def evC7W : ExpEvent :=
  { event_type := EVENT_STATE_CHANGED, time_fired := 99,
    new_state := some stC7W }

/-- Closed witness for `C7_attr_fields_roundtrip`: the string attribute
`note = "hello"` is recovered under `note_str`. -/
theorem C7_witness :
    (event_to_json conf0 evC7W).map (fun pt => alGet pt.fields "note_str") =
      some (some (.str "hello")) := by
  cases hj : event_to_json conf0 evC7W with
  | none => exact absurd hj (by decide)
  | some p =>
    have h := C7_attr_fields_roundtrip conf0 evC7W stC7W p "note"
      (.str "hello") rfl hj (by decide) (by decide) (by decide) (by decide)
      (by decide) (by decide) (by decide) (by decide) (by decide)
    have h2 : alGet p.fields ("note" ++ "_str") =
        some (FieldValue.str "hello") ∧ finiteAt p.fields "note" = true := h
    exact congrArg some h2.1

end Influx

end RetroState
